import Mathlib

/-!
Shallow embedding of the core logic of the TV-show catalog viewer
(`src/script.js`): search filtering, pagination, the response cache,
the paged catalog loader, and the show/episode view state machine.
Each definition transliterates the corresponding JavaScript function;
theorems at the end settle the specification claims.
-/

namespace TVShow

/-- A show record as consumed by the filter/sort logic.  `summary` and
`genres` are optional (the remote API may omit them); `name` is required. -/
structure Show where
  id : Nat
  name : String
  summary : Option String
  genres : Option (List String)
  deriving DecidableEq, Repr

/-- An episode record as consumed by the filter logic. -/
structure Episode where
  id : Nat
  name : String
  summary : Option String
  deriving DecidableEq, Repr

/-! ## JavaScript string primitives

Modelled structurally over the character list of the string so that the
kernel can evaluate them on concrete inputs. -/

/-- `s.toLowerCase()`. -/
def jsToLower (s : String) : String := String.mk (s.data.map Char.toLower)

/-- `s.trim()`: strip leading and trailing whitespace. -/
def jsTrim (s : String) : String :=
  String.mk
    (((s.data.dropWhile Char.isWhitespace).reverse.dropWhile
        Char.isWhitespace).reverse)

/-- `arr.join(sep)`. -/
def jsJoin (sep : String) : List String → String
  | [] => ""
  | [x] => x
  | x :: y :: xs => String.mk (x.data ++ sep.data ++ (jsJoin sep (y :: xs)).data)

/-! ## Substring matching (JavaScript `String.prototype.includes`) -/

/-- `hasSub hay needle` models `hay.includes(needle)`: `needle` occurs as a
contiguous substring of `hay` (over the character lists). -/
def hasSub : List Char → List Char → Bool
  | _, [] => true
  | [], _ :: _ => false
  | h :: t, n => List.isPrefixOf n (h :: t) || hasSub t n

/-- Query normalisation done by the search event handlers
(`event.target.value.toLowerCase().trim()`). -/
def normQuery (q : String) : String := jsTrim (jsToLower q)

/-! ## Search filters (`handleShowSearchEvent` lines 600-624,
`searchEpisodes` lines 754-764) -/

/-- The predicate inside `stateData.allShows.filter(...)` of
`handleShowSearchEvent`: case-insensitive substring match of the
(already normalised) query against name, summary (missing treated as
`""`), and the genre list joined by `" "`. -/
def showMatches (q : String) (s : Show) : Bool :=
  let name := jsToLower s.name
  let summary := jsToLower (s.summary.getD "")
  let genres := jsToLower (jsJoin " " (s.genres.getD []))
  hasSub name.toList q.toList || hasSub summary.toList q.toList ||
    hasSub genres.toList q.toList

/-- The data path of `handleShowSearchEvent` in the shows view: normalise
the raw input value; an empty normalised query shows `allShows` unchanged,
otherwise filter. -/
def filterShows (shows : List Show) (rawQuery : String) : List Show :=
  let q := normQuery rawQuery
  if q = "" then shows else shows.filter (showMatches q)

/-- The predicate inside `allEpisodes.filter(...)` of `searchEpisodes`:
match against name and summary (missing summary treated as `""`);
`searchEpisodes` lowercases the search value once more internally. -/
def episodeMatches (searchValue : String) (e : Episode) : Bool :=
  let name := jsToLower e.name
  let summary := jsToLower (e.summary.getD "")
  let search := jsToLower searchValue
  hasSub name.toList search.toList || hasSub summary.toList search.toList

/-- `searchEpisodes` (lines 754-764): a falsy (empty) search value keeps the
whole list, otherwise filter by `episodeMatches`. -/
def searchEpisodes (allEpisodes : List Episode) (searchValue : String) :
    List Episode :=
  if searchValue = "" then allEpisodes
  else allEpisodes.filter (episodeMatches searchValue)

/-- The data path of `handleEpisodeSearchEvent` in the episodes view:
normalise the raw input; empty means show all episodes, otherwise run
`searchEpisodes` on the normalised value. -/
def filterEpisodes (eps : List Episode) (rawQuery : String) : List Episode :=
  let q := normQuery rawQuery
  if q = "" then eps else searchEpisodes eps q

/-! ## Raw records with possibly-missing `name` (claim C10) -/

/-- A show record as it arrives from the remote API, before any field is
assumed present. -/
structure RawShow where
  id : Nat
  name : Option String
  summary : Option String
  genres : Option (List String)
  deriving DecidableEq, Repr

/-- An episode record as it arrives from the remote API. -/
structure RawEpisode where
  id : Nat
  name : Option String
  summary : Option String
  deriving DecidableEq, Repr

/-- The show-search predicate evaluated on a raw record: reading `name`
when it is absent is a runtime `TypeError` in the JavaScript (modelled as
`none`); missing `summary`/`genres` fall back to the empty string. -/
def rawShowMatches (q : String) (s : RawShow) : Option Bool :=
  match s.name with
  | none => none
  | some n => some (showMatches q ⟨s.id, n, s.summary, s.genres⟩)

/-- The episode-search predicate evaluated on a raw record. -/
def rawEpisodeMatches (q : String) (e : RawEpisode) : Option Bool :=
  match e.name with
  | none => none
  | some n => some (episodeMatches q ⟨e.id, n, e.summary⟩)

/-! ## Pagination engine (`createPagination` lines 62-171, `displayPage`
lines 183-204, `makePageForShows`/`makePageForEpisodes` lines 362-380) -/

/-- `Math.ceil (a / b)` on non-negative integers with `b > 0`. -/
def ceilDiv (a b : Nat) : Nat := (a + b - 1) / b

/-- `items.slice(startIndex, endIndex)` of `displayPage`:
`startIndex = (currentPage - 1) * itemsPerPage`,
`endIndex = startIndex + itemsPerPage`, clamped to the list bounds. -/
def pageSlice {α : Type} (items : List α) (itemsPerPage page : Nat) : List α :=
  (items.drop ((page - 1) * itemsPerPage)).take itemsPerPage

/-- The `statePagination` global object.  Items are identified by their
numeric id; the pagination logic never inspects them. -/
structure PagSt where
  currentPage : Nat
  itemsPerPage : Nat
  totalPages : Nat
  currentDisplayList : List Nat
  deriving DecidableEq, Repr

/-- Initial `statePagination` value (lines 40-46). -/
def initPagSt : PagSt :=
  { currentPage := 1, itemsPerPage := 12, totalPages := 1,
    currentDisplayList := [] }

/-- State update of `createPagination` (lines 64-65): store the list and
recompute `totalPages = Math.ceil(items.length / itemsPerPage)`. -/
def createPagination (s : PagSt) (items : List Nat) : PagSt :=
  { s with currentDisplayList := items,
           totalPages := ceilDiv items.length s.itemsPerPage }

/-- `displayPage` (lines 183-204): compute the slice for the current page,
then rebuild the pagination controls (which updates the state). -/
def displayPage (s : PagSt) (items : List Nat) : List Nat × PagSt :=
  (pageSlice items s.itemsPerPage s.currentPage, createPagination s items)

/-- `makePageForShows` / `makePageForEpisodes` (lines 362-380): reset
`currentPage` to 1 and display the given list. -/
def makePage (s : PagSt) (items : List Nat) : PagSt :=
  (displayPage { s with currentPage := 1 } items).2

/-- The page-number window rendered by `createPagination` (lines 111-112):
`startPage = max(1, currentPage - 2)`,
`endPage = min(totalPages, startPage + 4)`. -/
def pageWindowLo (s : PagSt) : Nat := max 1 (s.currentPage - 2)

/-- Upper end of the page-number window. -/
def pageWindowHi (s : PagSt) : Nat :=
  min s.totalPages (pageWindowLo s + 4)

/-- One user-triggered pagination operation.  The navigation operations
(`prev`, `next`, page-number click, page-size change) exist only when the
controls were rendered, i.e. when `totalPages ≥ 2` (lines 84-87 hide them
otherwise); their handlers' own guards are included. -/
inductive PagStep : PagSt → PagSt → Prop
  | setSource (s : PagSt) (items : List Nat) :
      PagStep s (makePage s items)
  | prev (s : PagSt) (hc : 2 ≤ s.totalPages) (h : 1 < s.currentPage) :
      PagStep s
        (displayPage { s with currentPage := s.currentPage - 1 }
          s.currentDisplayList).2
  | next (s : PagSt) (hc : 2 ≤ s.totalPages)
      (h : s.currentPage < s.totalPages) :
      PagStep s
        (displayPage { s with currentPage := s.currentPage + 1 }
          s.currentDisplayList).2
  | goto (s : PagSt) (i : Nat) (hc : 2 ≤ s.totalPages)
      (hlo : pageWindowLo s ≤ i) (hhi : i ≤ pageWindowHi s) :
      PagStep s
        (displayPage { s with currentPage := i } s.currentDisplayList).2
  | setSize (s : PagSt) (n : Nat) (hc : 2 ≤ s.totalPages)
      (hn : n ∈ [6, 12, 24, 48]) :
      PagStep s
        (displayPage { s with itemsPerPage := n, currentPage := 1 }
          s.currentDisplayList).2

/-- States reachable from the initial pagination state. -/
def PagReachable (s : PagSt) : Prop :=
  Relation.ReflTransGen PagStep initPagSt s

/-- The invariant claimed of the pagination state. -/
def pageInv (s : PagSt) : Prop :=
  1 ≤ s.currentPage ∧ s.currentPage ≤ max 1 s.totalPages

/-- Auxiliary strengthening of `pageInv` used in the induction: the page
size is positive and, whenever the pagination controls are visible
(`totalPages ≥ 2`), the stored `totalPages` agrees with the value derived
from the stored list. -/
def pagFullInv (s : PagSt) : Prop :=
  1 ≤ s.currentPage ∧ s.currentPage ≤ max 1 s.totalPages ∧
  0 < s.itemsPerPage ∧
  (2 ≤ s.totalPages →
    s.totalPages = ceilDiv s.currentDisplayList.length s.itemsPerPage)

/-! ## Response cache (`fetchWithCache`, lines 395-418)

The cache (`stateData.fetchCache`, a `Map`) is an association list from
URLs to decoded payloads; the network is a function from a URL to an
optional payload (`none` models a failed fetch: non-ok status or a body
that fails to decode).  The `Bool` component records whether a network
request was issued. -/

/-- One lookup on the `Map`: first binding for the key, if any. -/
def cacheLookup {α : Type} (cache : List (String × α)) (url : String) :
    Option α :=
  (cache.find? (fun p => p.1 = url)).map Prod.snd

/-- `fetchWithCache(url)`: return the cached payload when present
(no network); otherwise fetch — on success store the payload under the
exact URL and return it, on failure store nothing and propagate the
failure. -/
def fetchWithCache {α : Type} (cache : List (String × α))
    (net : String → Option α) (url : String) :
    Option α × List (String × α) × Bool :=
  match cacheLookup cache url with
  | some d => (some d, cache, false)
  | none =>
    match net url with
    | none => (none, cache, true)
    | some d => (some d, (url, d) :: cache, true)

/-! ## Catalog loader (`fetchAllShows`, lines 430-459)

Page payloads are decoded JSON values: either not an array, or an array
of show records.  The network is a function from page number to an
outcome (each page URL is requested at most once here, so a
deterministic function is faithful).  `CacheSt` carries the page-keyed
cache and the ordered log of network requests issued. -/

/-- Decoded JSON body of a catalog page request. -/
inductive PageData : Type
  | notArr : PageData
  | arr : List Show → PageData
  deriving DecidableEq, Repr

/-- Outcome of a network request for a catalog page. -/
inductive NetResp : Type
  | fail : NetResp
  | ok : PageData → NetResp
  deriving DecidableEq, Repr

/-- Cache and network-request log threaded through the catalog loader. -/
structure CacheSt where
  cache : List (Nat × PageData)
  netLog : List Nat
  deriving DecidableEq, Repr

/-- `fetchWithCache` specialised to catalog pages: a hit answers from the
cache with no network request; a miss issues a network request (logged),
and a successful decoded payload is stored. -/
def fetchPageWithCache (net : Nat → NetResp) (st : CacheSt) (page : Nat) :
    NetResp × CacheSt :=
  match (st.cache.find? (fun p => p.1 = page)).map Prod.snd with
  | some d => (NetResp.ok d, st)
  | none =>
    match net page with
    | NetResp.fail => (NetResp.fail, { st with netLog := st.netLog ++ [page] })
    | NetResp.ok d =>
        (NetResp.ok d,
         { cache := (page, d) :: st.cache, netLog := st.netLog ++ [page] })

/-- The recursive `getPage` of `fetchAllShows` (lines 437-451): request the
page through the cache; stop on a fetch failure (logged, accumulated
results kept), on a non-array payload, or on an empty page; otherwise
accumulate and recurse while `page + 1 < maxPages`.  `fuel` is
`maxPages + 1 - page`, so it never runs out on the guarded calls. -/
def getPages (net : Nat → NetResp) (maxPages : Nat) :
    Nat → Nat → CacheSt → List Show → List Show × CacheSt
  | 0, _, st, acc => (acc, st)
  | fuel + 1, page, st, acc =>
    match fetchPageWithCache net st page with
    | (NetResp.fail, st') => (acc, st')
    | (NetResp.ok PageData.notArr, st') => (acc, st')
    | (NetResp.ok (PageData.arr l), st') =>
      if l = [] then (acc, st')
      else if page + 1 < maxPages then
        getPages net maxPages fuel (page + 1) st' (acc ++ l)
      else (acc ++ l, st')

/-- The sort comparator of `fetchAllShows` (lines 456-458):
`a.name.toLowerCase().localeCompare(b.name.toLowerCase())` ordered
ascending. -/
def nameLe (a b : Show) : Prop :=
  (jsToLower a.name).data ≤ (jsToLower b.name).data

instance : DecidableRel nameLe := fun a b =>
  inferInstanceAs (Decidable ((jsToLower a.name).data ≤ (jsToLower b.name).data))

instance : IsTotal Show nameLe :=
  ⟨fun a b => le_total (jsToLower a.name).data (jsToLower b.name).data⟩

instance : IsTrans Show nameLe := ⟨fun _ _ _ h h' => le_trans h h'⟩

/-- `fetchAllShows(maxPages = 10)` starting from the given cache state:
accumulate pages `0, 1, 2, …` and return the accumulated list sorted by
lower-cased name (a stable sort), together with the final cache state. -/
def fetchAllShows (net : Nat → NetResp) (st : CacheSt) (maxPages : Nat) :
    List Show × CacheSt :=
  let (all, st') := getPages net maxPages (maxPages + 1) 0 st []
  (List.insertionSort nameLe all, st')

/-! ## View state machine (`fetchEpisodesByShowId` lines 470-506, the
"Watch Show" click handler lines 339-345, `switchToEpisodesView`
lines 683-689, `handleShowDropDownChange` lines 560-568) -/

/-- `stateSearch.view`. -/
inductive View : Type
  | shows : View
  | episodes : View
  deriving DecidableEq, Repr

/-- The `#status-message` element: absent, "Loading episodes...", or the
failure text. -/
inductive StatusMsg : Type
  | noMsg : StatusMsg
  | loading : StatusMsg
  | error : StatusMsg
  deriving DecidableEq, Repr

/-- The slice of application state touched by show selection and episode
fetching. -/
structure AppSt where
  view : View
  currentShowId : Option Nat
  allEpisodes : List Episode
  episodeCounter : Nat
  msg : StatusMsg
  deriving DecidableEq, Repr

/-- The synchronous part of `fetchEpisodesByShowId` (lines 470-477): set
`stateData.currentShowId` to the requested id and show the loading
message, before the fetch resolves. -/
def startEpisodeFetch (s : AppSt) (showId : Nat) : AppSt :=
  { s with currentShowId := some showId, msg := StatusMsg.loading }

/-- The "Watch Show" card button handler (lines 339-345): set
`currentShowId`, start the episode fetch, and switch to the episodes view
immediately — all before the fetch resolves. -/
def watchShowClick (s : AppSt) (showId : Nat) : AppSt :=
  { startEpisodeFetch s showId with view := View.episodes }

/-- `handleShowDropDownChange` with a concrete show id (lines 565-567):
start the episode fetch; the view is not switched on this path. -/
def dropDownSelectShow (s : AppSt) (showId : Nat) : AppSt :=
  startEpisodeFetch s showId

/-- The resolution of an episode fetch (the `.then`/`.catch` handlers,
lines 485-505).  `r = some eps` is a successful response: replace
`allEpisodes` and the counter and remove the status message.  `r = none`
is a failure: show the error message, change nothing else.  The handler
receives no show id and performs no staleness check — exactly as in the
source. -/
def resolveEpisodeFetch (s : AppSt) (r : Option (List Episode)) : AppSt :=
  match r with
  | some eps =>
      { s with allEpisodes := eps, episodeCounter := eps.length,
               msg := StatusMsg.noMsg }
  | none => { s with msg := StatusMsg.error }

/-! ## Concrete fixtures for the specification scenarios -/

/-- 250 distinct show records, standing for the 250 shows of catalog
page 0 in the scenario. -/
def scenarioShows : List Show :=
  (List.range 250).map (fun i => ⟨i, "s", none, none⟩)

/-- Scenario network: catalog page 0 returns 250 shows, every later page
returns an empty array. -/
def scenarioNet : Nat → NetResp :=
  fun p => if p = 0 then NetResp.ok (PageData.arr scenarioShows)
           else NetResp.ok (PageData.arr [])

/-- The accumulated (unsorted) record list of the catalog loader. -/
def loadAccum (net : Nat → NetResp) (st : CacheSt) (maxPages : Nat) :
    List Show :=
  (getPages net maxPages (maxPages + 1) 0 st []).1

end TVShow

namespace TVShow

/-! # Theorems -/

/-! ## Search filtering (claims C7, C9, C10) -/

/-- C7: the search filter is a pure, order-preserving function: an
empty/whitespace-only query (one whose normalised form is empty) returns
the input list unchanged; a non-empty query keeps exactly the shows whose
name, summary, or space-joined genre list contains the normalised query
case-insensitively (for episodes: name or summary only), and the result
is a sublist of the input, so the original relative order is preserved. -/
theorem search_filter_spec :
    (∀ (l : List Show) (q : String), normQuery q = "" → filterShows l q = l) ∧
    (∀ (l : List Show) (q : String), normQuery q ≠ "" →
      filterShows l q = l.filter (showMatches (normQuery q)) ∧
      (∀ s : Show, s ∈ filterShows l q ↔
        s ∈ l ∧ showMatches (normQuery q) s = true) ∧
      (filterShows l q).Sublist l) ∧
    (∀ (l : List Episode) (q : String), normQuery q = "" →
      filterEpisodes l q = l) ∧
    (∀ (l : List Episode) (q : String), normQuery q ≠ "" →
      filterEpisodes l q = l.filter (episodeMatches (normQuery q)) ∧
      (∀ e : Episode, e ∈ filterEpisodes l q ↔
        e ∈ l ∧ episodeMatches (normQuery q) e = true) ∧
      (filterEpisodes l q).Sublist l) := by
  refine ⟨fun l q h => by simp [filterShows, h],
          fun l q h => ?_,
          fun l q h => by simp [filterEpisodes, h],
          fun l q h => ?_⟩
  · refine ⟨by simp [filterShows, h], fun s => ?_, ?_⟩
    · simp [filterShows, h, List.mem_filter]
    · simp only [filterShows, h, if_neg, ite_false]
      exact List.filter_sublist l
  · refine ⟨by simp [filterEpisodes, searchEpisodes, h], fun e => ?_, ?_⟩
    · simp [filterEpisodes, searchEpisodes, h, List.mem_filter]
    · simp only [filterEpisodes, searchEpisodes, h, if_neg, ite_false]
      exact List.filter_sublist l

/-- Witness for C7 at concrete inputs: a whitespace-only query is the
identity, and the query `"Comedy"` keeps exactly the matching show. -/
theorem search_filter_spec_witness :
    filterShows [⟨1, "A Comedy", none, none⟩, ⟨2, "B", none, none⟩] "  " =
      [⟨1, "A Comedy", none, none⟩, ⟨2, "B", none, none⟩] ∧
    filterShows [⟨1, "A Comedy", none, none⟩, ⟨2, "B", none, none⟩] "Comedy" =
      [⟨1, "A Comedy", none, none⟩] := by
  constructor
  · exact search_filter_spec.1 _ "  " (by decide)
  · have h := (search_filter_spec.2.1
      [⟨1, "A Comedy", none, none⟩, ⟨2, "B", none, none⟩] "Comedy"
      (by decide)).1
    rw [h]; decide

/-- C9: filtering is idempotent (filtering an already-filtered list with
the same query gives the identical list) and monotone (the filtered list
is no longer than the input), for the show filter and the episode
filter. -/
theorem filter_idem_mono :
    (∀ (l : List Show) (q : String),
      filterShows (filterShows l q) q = filterShows l q ∧
      (filterShows l q).length ≤ l.length) ∧
    (∀ (l : List Episode) (q : String),
      filterEpisodes (filterEpisodes l q) q = filterEpisodes l q ∧
      (filterEpisodes l q).length ≤ l.length) := by
  constructor
  · intro l q
    by_cases h : normQuery q = ""
    · simp [filterShows, h]
    · constructor
      · simp only [filterShows, h, ite_false]
        rw [List.filter_filter]
        congr 1
        funext a
        rw [Bool.and_self]
      · simp only [filterShows, h, ite_false]
        exact List.length_filter_le _ _
  · intro l q
    by_cases h : normQuery q = ""
    · simp [filterEpisodes, h]
    · constructor
      · simp only [filterEpisodes, searchEpisodes, h, ite_false]
        rw [List.filter_filter]
        congr 1
        funext a
        rw [Bool.and_self]
      · simp only [filterEpisodes, searchEpisodes, h, ite_false]
        exact List.length_filter_le _ _

/-- C10: on raw records, matching reads `name` unconditionally (absent
`name` is a failure, present `name` always yields a Boolean), while a
missing `summary` or `genres` (for shows) or `summary` (for episodes) is
treated as the empty value, leaving the record able to match on its other
fields. -/
theorem raw_match_totality :
    (∀ (s : RawShow) (q n : String), s.name = some n →
      rawShowMatches q s = some (showMatches q ⟨s.id, n, s.summary, s.genres⟩)) ∧
    (∀ (s : RawShow) (q : String), s.name = none → rawShowMatches q s = none) ∧
    (∀ (s : RawShow) (q : String), s.summary = none →
      rawShowMatches q s = rawShowMatches q { s with summary := some "" }) ∧
    (∀ (s : RawShow) (q : String), s.genres = none →
      rawShowMatches q s = rawShowMatches q { s with genres := some [] }) ∧
    (∀ (e : RawEpisode) (q n : String), e.name = some n →
      rawEpisodeMatches q e = some (episodeMatches q ⟨e.id, n, e.summary⟩)) ∧
    (∀ (e : RawEpisode) (q : String), e.name = none →
      rawEpisodeMatches q e = none) ∧
    (∀ (e : RawEpisode) (q : String), e.summary = none →
      rawEpisodeMatches q e = rawEpisodeMatches q { e with summary := some "" }) := by
  refine ⟨?_, ?_, ?_, ?_, ?_, ?_, ?_⟩
  · intro s q n h; simp [rawShowMatches, h]
  · intro s q h; simp [rawShowMatches, h]
  · intro s q h
    cases hn : s.name with
    | none => simp [rawShowMatches, hn]
    | some n => simp [rawShowMatches, hn, showMatches, h]
  · intro s q h
    cases hn : s.name with
    | none => simp [rawShowMatches, hn]
    | some n => simp [rawShowMatches, hn, showMatches, h, String.intercalate]
  · intro e q n h; simp [rawEpisodeMatches, h]
  · intro e q h; simp [rawEpisodeMatches, h]
  · intro e q h
    cases hn : e.name with
    | none => simp [rawEpisodeMatches, hn]
    | some n => simp [rawEpisodeMatches, hn, episodeMatches, h]

/-- Witness for C10: a show lacking summary and genres still matches on
its name, and a record missing `name` yields no Boolean at all. -/
theorem raw_match_totality_witness :
    rawShowMatches "fun" ⟨7, some "Fun Show", none, none⟩ = some true ∧
    rawShowMatches "fun" ⟨7, none, some "fun", some ["fun"]⟩ = none := by
  constructor
  · have h := raw_match_totality.1 ⟨7, some "Fun Show", none, none⟩ "fun"
      "Fun Show" rfl
    rw [h]; decide
  · exact raw_match_totality.2.1 ⟨7, none, some "fun", some ["fun"]⟩ "fun" rfl

/-! ## Response cache (claim C8) -/

/-- C8: `fetchWithCache` answers a first call for a URL from the network,
storing a successful decoded payload under that exact URL so that every
later call with the same URL answers from the cache with no network
access; a failed fetch stores nothing, so the next call with the same URL
goes to the network again. -/
theorem fetchWithCache_correct :
    ∀ (α : Type) (cache : List (String × α)) (net net2 : String → Option α)
      (url : String) (d : α),
      (cacheLookup cache url = none → net url = some d →
        fetchWithCache cache net url = (some d, (url, d) :: cache, true) ∧
        cacheLookup ((url, d) :: cache) url = some d ∧
        fetchWithCache ((url, d) :: cache) net2 url =
          (some d, (url, d) :: cache, false)) ∧
      (cacheLookup cache url = some d →
        fetchWithCache cache net url = (some d, cache, false)) ∧
      (cacheLookup cache url = none → net url = none →
        fetchWithCache cache net url = (none, cache, true) ∧
        (fetchWithCache cache net2 url).2.2 = true) := by
  intro α cache net net2 url d
  refine ⟨fun hm hn => ?_, fun hh => ?_, fun hm hn => ?_⟩
  · have hcons : cacheLookup ((url, d) :: cache) url = some d := by
      simp [cacheLookup, List.find?]
    exact ⟨by simp [fetchWithCache, hm, hn], hcons,
           by simp [fetchWithCache, hcons]⟩
  · simp [fetchWithCache, hh]
  · refine ⟨by simp [fetchWithCache, hm, hn], ?_⟩
    cases hn2 : net2 url <;> simp [fetchWithCache, hm, hn2]

/-- Witness for C8: a concrete first call fetches and caches, the second
call answers from the cache, and after a failure the retry hits the
network. -/
theorem fetchWithCache_correct_witness :
    fetchWithCache ([] : List (String × Nat)) (fun _ => some 5) "u" =
      (some 5, [("u", 5)], true) ∧
    fetchWithCache [("u", 5)] (fun _ => none) "u" = (some 5, [("u", 5)], false) ∧
    (fetchWithCache ([] : List (String × Nat)) (fun _ => none) "u").2.2 = true := by
  have h := fetchWithCache_correct Nat [] (fun _ => some 5) (fun _ => none) "u" 5
  have h2 := fetchWithCache_correct Nat [] (fun _ => none) (fun _ => none) "u" 5
  refine ⟨(h.1 rfl rfl).1, (h.1 rfl rfl).2.2, (h2.2.2 rfl rfl).2⟩

/-! ## Episode fetch and view switching (claims C1, C2) -/

/-- Counterexample to C1 as stated: starting in the Shows view with no
selected show, clicking "Watch Show" on show 82 and having the episode
fetch fail leaves the application in the Episodes view with
`currentShowId = 82` — the state does not remain in Shows with
`currentShowId` unmutated. -/
theorem episode_fetch_failure_cex :
    ¬ (((resolveEpisodeFetch
          (watchShowClick
            ⟨View.shows, none, [⟨1, "e", none⟩], 1, StatusMsg.noMsg⟩ 82)
          none).view = View.shows) ∧
       (resolveEpisodeFetch
          (watchShowClick
            ⟨View.shows, none, [⟨1, "e", none⟩], 1, StatusMsg.noMsg⟩ 82)
          none).allEpisodes = [⟨1, "e", none⟩] ∧
       (resolveEpisodeFetch
          (watchShowClick
            ⟨View.shows, none, [⟨1, "e", none⟩], 1, StatusMsg.noMsg⟩ 82)
          none).currentShowId = none) := by
  decide

/-- C1 (amended): on episode-fetch failure, `allEpisodes` and the episode
counter are left unchanged and the error message is shown; but
`currentShowId` has already been set to the requested id at fetch start
and is not restored, and while the dropdown path leaves the view where it
was, the Watch-Show card path has already switched to the Episodes view
before the fetch settles. -/
theorem episode_fetch_failure_behavior :
    ∀ (s : AppSt) (showId : Nat),
      ((resolveEpisodeFetch (watchShowClick s showId) none).allEpisodes =
          s.allEpisodes ∧
        (resolveEpisodeFetch (watchShowClick s showId) none).episodeCounter =
          s.episodeCounter ∧
        (resolveEpisodeFetch (watchShowClick s showId) none).msg =
          StatusMsg.error ∧
        (resolveEpisodeFetch (watchShowClick s showId) none).currentShowId =
          some showId ∧
        (resolveEpisodeFetch (watchShowClick s showId) none).view =
          View.episodes) ∧
      ((resolveEpisodeFetch (dropDownSelectShow s showId) none).allEpisodes =
          s.allEpisodes ∧
        (resolveEpisodeFetch (dropDownSelectShow s showId) none).episodeCounter =
          s.episodeCounter ∧
        (resolveEpisodeFetch (dropDownSelectShow s showId) none).msg =
          StatusMsg.error ∧
        (resolveEpisodeFetch (dropDownSelectShow s showId) none).currentShowId =
          some showId ∧
        (resolveEpisodeFetch (dropDownSelectShow s showId) none).view =
          s.view) := by
  intro s showId
  simp [resolveEpisodeFetch, watchShowClick, dropDownSelectShow,
    startEpisodeFetch]

/-- C2: evaluation of the race at the failing input.  Watch show 82, then
watch show 100 while 82's fetch is still in flight; show 100's response
arrives first, then show 82's stale response.  The final state has
`currentShowId = 100` but `allEpisodes` equal to show 82's episode list:
the stale response is not discarded. -/
theorem stale_response_overwrites :
    ((resolveEpisodeFetch
        (resolveEpisodeFetch
          (watchShowClick
            (watchShowClick ⟨View.shows, none, [], 0, StatusMsg.noMsg⟩ 82)
            100)
          (some [⟨20, "b1", none⟩]))
        (some [⟨10, "a1", none⟩])).currentShowId = some 100 ∧
     (resolveEpisodeFetch
        (resolveEpisodeFetch
          (watchShowClick
            (watchShowClick ⟨View.shows, none, [], 0, StatusMsg.noMsg⟩ 82)
            100)
          (some [⟨20, "b1", none⟩]))
        (some [⟨10, "a1", none⟩])).allEpisodes = [⟨10, "a1", none⟩] ∧
     ([⟨10, "a1", none⟩] : List Episode) ≠ [⟨20, "b1", none⟩]) := by
  decide

/-! ## Pagination (claims C3, C4) -/

/-- Every pagination operation ends by rebuilding the controls, which
recomputes `totalPages = Math.ceil(length / itemsPerPage)` from the list
it stores. -/
theorem pagStep_sync {s s' : PagSt} (h : PagStep s s') :
    s'.totalPages = ceilDiv s'.currentDisplayList.length s'.itemsPerPage := by
  cases h <;> rfl

/-- Pagination operations keep the page size positive: only the
page-size selector changes it, to one of 6, 12, 24, 48. -/
theorem pagStep_itemsPos {s s' : PagSt} (h : PagStep s s')
    (hp : 0 < s.itemsPerPage) : 0 < s'.itemsPerPage := by
  cases h with
  | setSize n hc hn =>
    simp only [List.mem_cons, List.not_mem_nil, or_false] at hn
    show 0 < n
    rcases hn with h | h | h | h <;> omega
  | setSource items => exact hp
  | prev hc hg => exact hp
  | next hc hg => exact hp
  | goto i hc hlo hhi => exact hp

/-- One-step preservation of the strengthened pagination invariant. -/
theorem pagStep_preserves {s s' : PagSt} (h : PagStep s s')
    (hs : pagFullInv s) : pagFullInv s' := by
  obtain ⟨h1, h2, hP, hsync⟩ := hs
  refine ⟨?_, ?_, pagStep_itemsPos h hP, fun _ => pagStep_sync h⟩ <;>
  · cases h with
    | setSource items =>
      simp only [makePage, displayPage, createPagination]
      omega
    | prev hc hg =>
      have he := hsync hc
      simp only [displayPage, createPagination] at *
      omega
    | next hc hg =>
      have he := hsync hc
      simp only [displayPage, createPagination] at *
      omega
    | goto i hc hlo hhi =>
      have he := hsync hc
      simp only [displayPage, createPagination, pageWindowLo, pageWindowHi]
        at *
      omega
    | setSize n hc hn =>
      simp only [displayPage, createPagination]
      omega

/-- The initial pagination state satisfies the strengthened invariant. -/
theorem pagInit_fullInv : pagFullInv initPagSt :=
  ⟨by decide, by decide, by decide, fun h => absurd h (by decide)⟩

/-- Every reachable pagination state satisfies the strengthened
invariant. -/
theorem pagReachable_fullInv {s : PagSt} (h : PagReachable s) :
    pagFullInv s := by
  induction h with
  | refl => exact pagInit_fullInv
  | tail _ hstep ih => exact pagStep_preserves hstep ih

/-- Counterexample to C3 as stated: resetting the source list to the
empty list (an operation that updates pagination state) yields
`totalPages = 0`, not `max(1, ceil(0 / pageSize)) = 1`. -/
theorem pagination_totalPages_cex :
    ¬ ((makePage initPagSt []).totalPages =
        max 1 (ceilDiv (makePage initPagSt []).currentDisplayList.length
                 (makePage initPagSt []).itemsPerPage)) := by
  decide

/-- C3 (amended): after every pagination operation,
`totalPages = ceil(length(sourceList) / pageSize)` with no lower clamp;
this agrees with `max(1, ceil(...))` exactly when the source list is
non-empty, and for an empty source list `totalPages` is `0`, not `1`. -/
theorem pagination_totalPages_eq :
    (∀ s s' : PagSt, PagStep s s' →
      s'.totalPages = ceilDiv s'.currentDisplayList.length s'.itemsPerPage) ∧
    (∀ s s' : PagSt, PagStep s s' → 0 < s'.itemsPerPage →
      s'.currentDisplayList ≠ [] →
      s'.totalPages =
        max 1 (ceilDiv s'.currentDisplayList.length s'.itemsPerPage)) := by
  refine ⟨fun s s' h => pagStep_sync h, fun s s' h hP hne => ?_⟩
  rw [pagStep_sync h]
  have hlen : 1 ≤ s'.currentDisplayList.length := List.length_pos.mpr hne
  have h1 : 1 ≤ ceilDiv s'.currentDisplayList.length s'.itemsPerPage := by
    rw [ceilDiv, Nat.one_le_div_iff hP]
    omega
  omega

/-- Witness for C3 (amended): loading a 25-item list with page size 12
gives `totalPages = 3 = max(1, ceil(25/12))`. -/
theorem pagination_totalPages_eq_witness :
    (makePage initPagSt (List.range 25)).totalPages = 3 := by
  have h := pagination_totalPages_eq.2 initPagSt _
    (PagStep.setSource initPagSt (List.range 25)) (by decide) (by decide)
  rw [h]
  decide

/-- C4: the pagination invariant `1 ≤ currentPage ≤ max(1, totalPages)`
holds in the initial state and in every state reachable by pagination
operations (source replacement, prev/next, page-number clicks, page-size
changes): no reachable state leaves `currentPage` out of range. -/
theorem pagination_page_in_range :
    pageInv initPagSt ∧ ∀ s : PagSt, PagReachable s → pageInv s := by
  refine ⟨⟨by decide, by decide⟩, fun s h => ?_⟩
  obtain ⟨h1, h2, _, _⟩ := pagReachable_fullInv h
  exact ⟨h1, h2⟩

/-- Witness for C4 at a concrete reachable state (a freshly loaded
25-item list). -/
theorem pagination_page_in_range_witness :
    pageInv (makePage initPagSt (List.range 25)) :=
  pagination_page_in_range.2 _
    (Relation.ReflTransGen.single (PagStep.setSource initPagSt (List.range 25)))

/-! ## Page slices (claim C5) -/

/-- Arithmetic step for the page count: for a non-empty list, one page of
`P` items comes off the front. -/
theorem ceilDiv_sub (P n : Nat) (hP : 0 < P) (hn : 0 < n) :
    ceilDiv n P = ceilDiv (n - P) P + 1 := by
  unfold ceilDiv
  rcases Nat.le_total n P with h | h
  · have h1 : n + P - 1 = (n - 1) + P := by omega
    rw [h1, Nat.add_div_right _ hP, Nat.div_eq_of_lt (by omega : n - 1 < P)]
    have h3 : n - P = 0 := by omega
    rw [h3, Nat.div_eq_of_lt (by omega : 0 + P - 1 < P)]
  · have h1 : n + P - 1 = (n - P + P - 1) + P := by omega
    rw [h1, Nat.add_div_right _ hP]

/-- The page slices for pages `1 .. ceil(L/P)` concatenate back to the
original list. -/
theorem slices_flatten {α : Type} (P : Nat) (hP : 0 < P) (l : List α) :
    ((List.range (ceilDiv l.length P)).map
      (fun i => pageSlice l P (i + 1))).flatten = l := by
  have H : ∀ (n : Nat) (l : List α), l.length ≤ n →
      ((List.range (ceilDiv l.length P)).map
        (fun i => pageSlice l P (i + 1))).flatten = l := by
    intro n
    induction n with
    | zero =>
      intro l hl
      have hnil : l = [] := List.eq_nil_of_length_eq_zero (Nat.le_zero.mp hl)
      subst hnil
      simp [ceilDiv, Nat.div_eq_of_lt (by omega : P - 1 < P)]
    | succ n ih =>
      intro l hl
      cases l with
      | nil => simp [ceilDiv, Nat.div_eq_of_lt (by omega : P - 1 < P)]
      | cons x xs =>
        simp only [List.length_cons] at hl
        rw [ceilDiv_sub P (x :: xs).length hP (by simp),
          List.range_succ_eq_map]
        simp only [List.map_cons, List.map_map, List.flatten_cons]
        have hlen : ((x :: xs).drop P).length ≤ n := by
          simp only [List.length_drop, List.length_cons]
          omega
        have ihd := ih ((x :: xs).drop P) hlen
        rw [List.length_drop] at ihd
        have hmap :
            List.map ((fun i => pageSlice (x :: xs) P (i + 1)) ∘ Nat.succ)
                (List.range (ceilDiv ((x :: xs).length - P) P)) =
              List.map (fun i => pageSlice ((x :: xs).drop P) P (i + 1))
                (List.range (ceilDiv ((x :: xs).length - P) P)) := by
          apply List.map_congr_left
          intro i _
          simp only [Function.comp_apply, pageSlice, List.drop_drop,
            Nat.succ_eq_add_one, Nat.add_sub_cancel]
          rw [show (i + 1) * P = P + i * P from by ring]
        rw [hmap, ihd]
        have h0 : pageSlice (x :: xs) P (0 + 1) = (x :: xs).take P := by
          simp [pageSlice]
        rw [h0, List.take_append_drop]
  exact H l.length l (le_refl _)

/-- C5: every page slice has length at most the page size; the page
slices for pages `1 .. totalPages` concatenate to exactly the original
list (so they are disjoint and no item is duplicated or dropped); and for
a 25-item list with page size 12 the page count is 3 and the page-3 slice
has exactly one item. -/
theorem page_slices_partition :
    (∀ (l : List Show) (P p : Nat), (pageSlice l P p).length ≤ P) ∧
    (∀ (l : List Show) (P : Nat), 0 < P →
      ((List.range (ceilDiv l.length P)).map
        (fun i => pageSlice l P (i + 1))).flatten = l) ∧
    (∀ l : List Show, l.length = 25 →
      ceilDiv l.length 12 = 3 ∧ (pageSlice l 12 3).length = 1) := by
  refine ⟨?_, ?_, ?_⟩
  · intro l P p
    simp [pageSlice]
  · intro l P hP
    exact slices_flatten P hP l
  · intro l hl
    refine ⟨by rw [hl]; decide, ?_⟩
    simp [pageSlice, hl]

/-- Witness for C5 at a concrete 25-item show list with page size 12. -/
theorem page_slices_partition_witness :
    ceilDiv ((List.range 25).map
      (fun i => (⟨i, "s", none, none⟩ : Show))).length 12 = 3 ∧
    (pageSlice ((List.range 25).map
      (fun i => (⟨i, "s", none, none⟩ : Show))) 12 3).length = 1 :=
  page_slices_partition.2.2 _ (by simp)

/-! ## Catalog loader (claim C6) -/

/-- `fetchAllShows` splits into the stable sort of the accumulated pages
and the final cache state of the paging loop. -/
theorem fetchAllShows_eq (net : Nat → NetResp) (st : CacheSt) (maxPages : Nat) :
    fetchAllShows net st maxPages =
      (List.insertionSort nameLe (loadAccum net st maxPages),
       (getPages net maxPages (maxPages + 1) 0 st []).2) := by
  unfold fetchAllShows loadAccum
  rcases h : getPages net maxPages (maxPages + 1) 0 st [] with ⟨a, b⟩
  rfl

/-- Starting from a cache that holds nothing at or above the current
page, the paging loop issues its network requests for consecutive pages
`page, page+1, …`. -/
theorem getPages_netLog (net : Nat → NetResp) (maxPages : Nat) :
    ∀ (fuel page : Nat) (st : CacheSt) (acc : List Show),
      (∀ q, page ≤ q → st.cache.find? (fun p => p.1 = q) = none) →
      ∃ k, (getPages net maxPages fuel page st acc).2.netLog =
        st.netLog ++ List.range' page k := by
  intro fuel
  induction fuel with
  | zero => exact fun page st acc _ => ⟨0, by simp [getPages]⟩
  | succ fuel ih =>
    intro page st acc hc
    have hmiss : (st.cache.find? (fun p => p.1 = page)).map Prod.snd = none := by
      rw [hc page (le_refl page)]
      rfl
    cases hnet : net page with
    | fail =>
      exact ⟨1, by simp [getPages, fetchPageWithCache, hmiss, hnet, List.range']⟩
    | ok d =>
      cases d with
      | notArr =>
        exact ⟨1, by simp [getPages, fetchPageWithCache, hmiss, hnet, List.range']⟩
      | arr l =>
        by_cases hl : l = []
        · exact ⟨1, by simp [getPages, fetchPageWithCache, hmiss, hnet, hl,
            List.range']⟩
        · by_cases hpage : page + 1 < maxPages
          · have hc' : ∀ q, page + 1 ≤ q →
                (({ cache := (page, PageData.arr l) :: st.cache,
                    netLog := st.netLog ++ [page] } : CacheSt)).cache.find?
                  (fun p => p.1 = q) = none := by
              intro q hq
              have hne : (decide (page = q)) = false := by
                simp only [decide_eq_false_iff_not]
                omega
              simp only [List.find?]
              simp only [hne]
              exact hc q (by omega)
            obtain ⟨k, hk⟩ := ih (page + 1)
              { cache := (page, PageData.arr l) :: st.cache,
                netLog := st.netLog ++ [page] } (acc ++ l) hc'
            refine ⟨k + 1, ?_⟩
            simp only [getPages, fetchPageWithCache, hmiss, hnet, hl,
              ite_false, hpage, ite_true, if_neg, if_pos]
            rw [hk]
            simp [List.range'_succ]
          · exact ⟨1, by simp [getPages, fetchPageWithCache, hmiss, hnet, hl,
              hpage, List.range']⟩

/-- C6: the catalog loader returns the accumulated records stably sorted
by lower-cased name ascending (sorted, a permutation of the accumulation,
ties kept in accumulation order); a page-fetch failure stops paging and
keeps the already-accumulated records (the function itself cannot raise —
it is total by construction); from a fresh cache the network requests are
exactly the consecutive pages `0, 1, …, k-1` for some `k`; and in the
scenario where page 0 has 250 shows and page 1 is empty, it returns
exactly 250 shows after exactly 2 network requests. -/
theorem load_catalog_spec :
    (∀ (net : Nat → NetResp) (st : CacheSt) (maxPages : Nat),
      (fetchAllShows net st maxPages).1.Sorted nameLe ∧
      (fetchAllShows net st maxPages).1.Perm (loadAccum net st maxPages) ∧
      (∀ a b : Show, nameLe a b →
        [a, b].Sublist (loadAccum net st maxPages) →
        [a, b].Sublist (fetchAllShows net st maxPages).1)) ∧
    (∀ (net : Nat → NetResp) (maxPages fuel page : Nat) (st : CacheSt)
      (acc : List Show),
      (st.cache.find? (fun p => p.1 = page)).map Prod.snd = none →
      net page = NetResp.fail →
      getPages net maxPages (fuel + 1) page st acc =
        (acc, { st with netLog := st.netLog ++ [page] })) ∧
    (∀ (net : Nat → NetResp) (maxPages : Nat),
      ∃ k, (fetchAllShows net ⟨[], []⟩ maxPages).2.netLog = List.range k) ∧
    ((fetchAllShows scenarioNet ⟨[], []⟩ 10).1.length = 250 ∧
     (fetchAllShows scenarioNet ⟨[], []⟩ 10).2.netLog = [0, 1]) := by
  refine ⟨fun net st maxPages => ?_, fun net maxPages fuel page st acc hm hn => ?_,
    fun net maxPages => ?_, ?_⟩
  · rw [fetchAllShows_eq]
    exact ⟨List.sorted_insertionSort nameLe _, List.perm_insertionSort nameLe _,
      fun a b hab hsub => List.pair_sublist_insertionSort hab hsub⟩
  · simp [getPages, fetchPageWithCache, hm, hn]
  · obtain ⟨k, hk⟩ := getPages_netLog net maxPages (maxPages + 1) 0 ⟨[], []⟩ []
      (fun q _ => rfl)
    refine ⟨k, ?_⟩
    rw [fetchAllShows_eq, List.range_eq_range']
    simpa using hk
  · have hgp : getPages scenarioNet 10 11 0 ⟨[], []⟩ [] =
        (scenarioShows,
         ⟨[(1, PageData.arr []), (0, PageData.arr scenarioShows)], [0, 1]⟩) := rfl
    constructor
    · rw [fetchAllShows_eq]
      simp only [loadAccum, hgp, List.length_insertionSort]
      simp [scenarioShows]
    · rw [fetchAllShows_eq]
      rw [hgp]

/-- Witness for C6: two shows with the same (tied) name, accumulated in
fetch order from a one-page catalog, appear in the same order in the
sorted output. -/
theorem load_catalog_spec_witness :
    [(⟨1, "a", none, none⟩ : Show), ⟨2, "a", none, none⟩].Sublist
      (fetchAllShows
        (fun p => if p = 0
          then NetResp.ok (PageData.arr
            [⟨1, "a", none, none⟩, ⟨2, "a", none, none⟩])
          else NetResp.ok (PageData.arr [])) ⟨[], []⟩ 10).1 :=
  (load_catalog_spec.1
    (fun p => if p = 0
      then NetResp.ok (PageData.arr [⟨1, "a", none, none⟩, ⟨2, "a", none, none⟩])
      else NetResp.ok (PageData.arr [])) ⟨[], []⟩ 10).2.2
    ⟨1, "a", none, none⟩ ⟨2, "a", none, none⟩ (by decide) (by decide)

end TVShow
